import Mathlib

/-!
Shallow embedding of the sr-router request pipeline: the two-layer
classifier (`router/classify.go`), the prompt-suffix injection and raw-body
patching (`router/inject.go`, `router/provider.go`), the failover engine
(`router/failover.go`), the strengths filter (`router/route.go`), and the
three live stream translators (`proxy/stream.go`).

Go maps are embedded as association lists.  Where the Go code iterates a
map (whose iteration order Go randomizes), the embedding takes the
iteration order as an explicit list parameter, so order-dependence can be
stated and settled.  Compiled regular expressions are embedded as their
match functions (`String → Bool`).  Rational numbers stand in for the
Go float64 configuration values.
-/

namespace SRRouter

/-- Go `strings.TrimSpace`: strip leading and trailing whitespace.
Embedded directly over the character list (the core-library substring
machinery is opaque to kernel reduction). -/
def goTrimSpace (s : String) : String :=
  ⟨((s.data.dropWhile Char.isWhitespace).reverse.dropWhile Char.isWhitespace).reverse⟩

/-- Go `strings.HasPrefix`, over the character list. -/
def goHasPrefix (s p : String) : Bool :=
  p.data.isPrefixOf s.data

/-- Drop the first `n` characters of a string (`strings.TrimPrefix` with
a known `n`-character prefix), over the character list. -/
def goDropChars (s : String) (n : Nat) : String :=
  ⟨s.data.drop n⟩

/-- JSON values, modelling bodies handled by Go `encoding/json`.  A body
decoded into `map[string]json.RawMessage` is embedded as an association
list `List (String × Json)`. -/
inductive Json where
  | null
  | bool (b : Bool)
  | num (n : Int)
  | str (s : String)
  | arr (elems : List Json)
  | obj (fields : List (String × Json))

/-- Update one key of a JSON object map, mirroring a Go map assignment
`body[key] = v`: the binding for `key` is replaced, or appended when the
key is absent. -/
def setKey : List (String × Json) → String → Json → List (String × Json)
  | [], key, v => [(key, v)]
  | (k, v0) :: rest, key, v =>
    if k = key then (key, v) :: rest else (k, v0) :: setKey rest key v

/-- One entry of `config.Config.Models` (`config/config.go`, type `Model`).
Fields not consumed by the embedded operations (weaknesses, latency,
max context) are omitted. -/
structure Model where
  provider : String
  apiModel : String
  baseURL : String
  strengths : List String
  costPer1kTok : ℚ
  qualityCeiling : ℚ
  promptSuffix : Option String

/-- The slice of `config.Config` consumed by the failover engine and the
suffix injection: the model catalogue, the per-tier failover chains and
the global fallback model. -/
structure Config where
  models : List (String × Model)
  failover : List (String × List String)
  fallbackModel : String

/-- `config.Config.GetFailoverChain`: the tier's chain when a failover
spec exists for the tier, otherwise a one-element chain holding the
global fallback model. -/
def Config.GetFailoverChain (c : Config) (tier : String) : List String :=
  match c.failover.lookup tier with
  | some chain => chain
  | none => [c.fallbackModel]

/-- `Router.InjectSuffix` (`router/inject.go`): append the model's trimmed
prompt suffix to the system prompt with a blank-line separator; an
absent or blank suffix leaves the prompt unchanged; an empty prompt
yields the suffix alone. -/
def InjectSuffix (cfg : Config) (modelName systemPrompt : String) : String :=
  match cfg.models.lookup modelName with
  | none => systemPrompt
  | some m =>
    match m.promptSuffix with
    | none => systemPrompt
    | some raw =>
      let suffix := goTrimSpace raw
      if suffix = "" then systemPrompt
      else if systemPrompt = "" then suffix
      else systemPrompt ++ "\n\n" ++ suffix

/-- `getModelSuffix` (`router/provider.go`): the trimmed prompt suffix of
a model, or `""` when the model or its suffix is absent. -/
def getModelSuffix (cfg : Config) (modelName : String) : String :=
  match cfg.models.lookup modelName with
  | none => ""
  | some m =>
    match m.promptSuffix with
    | none => ""
    | some raw => goTrimSpace raw

/-- `PatchAnthropicRawBody` (`router/provider.go`), at the level of the
decoded JSON object: set the `model` field to `apiModel`; when `suffix`
is non-empty, inject it into `system` (string concatenation with a
blank-line separator for a string-valued field, an appended text block
for an array-valued field, a fresh string field when absent).  A JSON
`null` system field behaves as Go does: unmarshalling null into a string
succeeds as a no-op, leaving the zero value `""`. -/
def PatchAnthropicRawBody (body : List (String × Json)) (apiModel suffix : String) :
    List (String × Json) :=
  let body := setKey body "model" (Json.str apiModel)
  if suffix = "" then body
  else
    match body.lookup "system" with
    | some (Json.str s) =>
      setKey body "system" (Json.str (if s = "" then suffix else s ++ "\n\n" ++ suffix))
    | some Json.null =>
      setKey body "system" (Json.str suffix)
    | some (Json.arr blocks) =>
      setKey body "system"
        (Json.arr (blocks ++ [Json.obj [("type", Json.str "text"), ("text", Json.str ("\n\n" ++ suffix))]]))
    | some _ => body
    | none => setKey body "system" (Json.str suffix)

/-- `isRetryableStatus` (`router/failover.go`): 401, 403, 429 and every
5xx status warrant advancing to the next model in the chain. -/
def isRetryableStatus (code : Nat) : Bool :=
  code == 401 || code == 403 || code == 429 || (decide (500 ≤ code) && decide (code < 600))

/-- `hasStrengths` (`router/route.go`): whether the model's strength set
contains every required strength; an empty requirement list accepts
every model. -/
def hasStrengths (modelStrengths required : List String) : Bool :=
  if required.isEmpty then true
  else required.all fun r => modelStrengths.contains r

/-- One ranked alternative of a routing decision (`router/route.go`,
type `Alternative`). -/
structure Alternative where
  model : String
  score : ℚ

/-- The routing decision fields consumed by the failover engine
(`router/route.go`, type `RoutingDecision`); score, reasoning and
estimated cost are not read by the chain builder and are omitted. -/
structure RoutingDecision where
  model : String
  tier : String
  alternatives : List Alternative

/-- The `add` closure inside `buildChainFromDecision`: append a name
unless it is empty or already present (the Go `seen` set always holds
exactly the chain's elements). -/
def addToChain (chain : List String) (name : String) : List String :=
  if name ≠ "" ∧ name ∉ chain then chain ++ [name] else chain

/-- `FailoverEngine.buildChainFromDecision` (`router/failover.go`):
selected model, then alternatives, then the tier's static chain, then
the global fallback, added left to right with the dedup guard. -/
def buildChainFromDecision (cfg : Config) (d : RoutingDecision) : List String :=
  (d.model :: (d.alternatives.map (·.model) ++ (cfg.GetFailoverChain d.tier ++ [cfg.fallbackModel]))).foldl
    addToChain []

/-- Specification-level description of chain building: keep the first
occurrence of every name, dropping later duplicates. -/
def dedupKeepFirst : List String → List String
  | [] => []
  | a :: l => a :: dedupKeepFirst (l.filter (fun x => x ≠ a))
termination_by l => l.length
decreasing_by
  simpa using Nat.lt_succ_of_le (List.length_filter_le _ _)

/-- Outcome of one provider call as the failover engine observes it:
a transport error, or an HTTP response with a status code.  The engine's
environment is embedded as a function from model name to outcome. -/
inductive CallOutcome where
  | networkError
  | status (code : Nat)

/-- The provider request as rebuilt for one attempt: which model was
called, the system prompt carried in `req.SystemPrompt`, and the raw
Anthropic body carried in `req.RawAnthropicBody` (`none` embeds Go nil). -/
structure Attempt where
  model : String
  systemPrompt : String
  rawBody : Option (List (String × Json))

/-- Result of the failover loop: first 2xx response, a non-retryable
upstream error returned verbatim, or chain exhaustion. -/
inductive FailoverStep where
  | success (model : String) (code : Nat)
  | upstreamError (model : String) (code : Nat)
  | exhausted

/-- The fields of `ProviderRequest` read by the failover engine itself;
messages, max-tokens, temperature and the stream flag pass through to
the adapters untouched and are omitted. -/
structure ProviderRequest where
  systemPrompt : String
  rawAnthropicBody : Option (List (String × Json))

/-- The attempt loop of `ExecuteWithFailover` (`router/failover.go`).
It walks the chain carrying the mutable `req.SystemPrompt` (the Go code
reassigns it with the injected suffix before every attempt) while the
raw body is re-patched from the preserved `originalRawBody` on every
attempt.  Returns the trace of adapter calls and the final outcome. -/
def failoverLoop (cfg : Config) (outcomes : String → CallOutcome)
    (originalRawBody : Option (List (String × Json))) :
    List String → String → List Attempt × FailoverStep
  | [], _ => ([], .exhausted)
  | name :: rest, sysPrompt =>
    match cfg.models.lookup name with
    | none => failoverLoop cfg outcomes originalRawBody rest sysPrompt
    | some m =>
      let sys := InjectSuffix cfg name sysPrompt
      let raw : Option (List (String × Json)) :=
        match originalRawBody with
        | some b =>
          if m.provider = "anthropic" then
            some (PatchAnthropicRawBody b m.apiModel (getModelSuffix cfg name))
          else none
        | none => none
      let att : Attempt := ⟨name, sys, raw⟩
      match outcomes name with
      | .networkError =>
        let (tail, out) := failoverLoop cfg outcomes originalRawBody rest sys
        (att :: tail, out)
      | .status code =>
        if 200 ≤ code ∧ code < 300 then ([att], .success name code)
        else if isRetryableStatus code then
          let (tail, out) := failoverLoop cfg outcomes originalRawBody rest sys
          (att :: tail, out)
        else ([att], .upstreamError name code)

/-- `FailoverEngine.ExecuteWithFailover` (`router/failover.go`): build
the chain from the decision, preserve the original raw body, and run the
attempt loop starting from the inbound system prompt. -/
def ExecuteWithFailover (cfg : Config) (outcomes : String → CallOutcome)
    (d : RoutingDecision) (req : ProviderRequest) : List Attempt × FailoverStep :=
  failoverLoop cfg outcomes req.rawAnthropicBody (buildChainFromDecision cfg d) req.systemPrompt

/-- One entry of `config.Config.RouteClasses` (`config/config.go`, type
`RouteClass`), keeping the fields the classifier reads: the detection
header rules, the default tier, the latency budget and the quality
floor.  The zero value of the Go struct is `default`. -/
structure RouteClass where
  headers : List String
  defaultTier : String
  latencyBudgetMs : Int
  qualityFloor : ℚ
deriving Inhabited

/-- One entry of `config.Config.Tasks` as read back by the classifier
after pattern compilation: the required strengths and the minimum
quality (the raw pattern strings live on only as compiled matchers). -/
structure TaskSpec where
  requiredStrengths : List String
  minQuality : ℚ

/-- The classification result (`router/classify.go`, type
`Classification`). -/
structure Classification where
  routeClass : String
  taskType : String
  tier : String
  minQuality : ℚ
  latencyBudgetMs : Int
  requiredStrengths : List String
  confidence : ℚ

/-- Go `strings.Contains h token`: the token occurs as a contiguous
substring of `h`. -/
def containsSub (h token : String) : Bool :=
  decide (token.data <:+: h.data)

/-- Priority 1 of `detectRouteClass`: the first route class, in the given
iteration order over `cfg.RouteClasses`, one of whose header rules
contains the header token. -/
def findHeaderClass : List (String × RouteClass) → String → Option String
  | [], _ => none
  | (name, rc) :: rest, rt =>
    if rc.headers.any (fun h => containsSub h rt) then some name
    else findHeaderClass rest rt

/-- Priority 2 of `detectRouteClass`: the first route class, in the given
iteration order over the compiled `routePatterns` map, one of whose
content patterns matches the prompt. -/
def findContentClass : List (String × List (String → Bool)) → String → Option String
  | [], _ => none
  | (name, pats) :: rest, prompt =>
    if pats.any (fun re => re prompt) then some name
    else findContentClass rest prompt

/-- `Classifier.detectRouteClass` (`router/classify.go`).  The Go code
iterates two maps (`cfg.RouteClasses` for the header rules and the
compiled `routePatterns` for the content patterns); their iteration
orders are the explicit list parameters `rcs` and `routePatterns`. -/
def detectRouteClass (rcs : List (String × RouteClass))
    (routePatterns : List (String × List (String → Bool)))
    (prompt : String) (headers : List (String × String)) : String :=
  match headers.lookup "x-request-type" with
  | some rt =>
    match findHeaderClass rcs rt with
    | some name => name
    | none => (findContentClass routePatterns prompt).getD "interactive"
  | none => (findContentClass routePatterns prompt).getD "interactive"

/-- Number of compiled patterns of one task that match the prompt. -/
def countHits (pats : List (String → Bool)) (prompt : String) : Nat :=
  pats.foldl (fun acc re => if re prompt then acc + 1 else acc) 0

/-- The accumulator step of `detectTaskType`: a task replaces the current
best only when its hit count strictly exceeds the best count, and its
strengths are looked up in `cfg.Tasks` (an absent entry leaves the
previous strengths in place, as in the Go code). -/
def taskStep (tasks : List (String × TaskSpec)) (prompt : String)
    (best : String × Nat × List String) (entry : String × List (String → Bool)) :
    String × Nat × List String :=
  let count := countHits entry.2 prompt
  if best.2.1 < count then
    (entry.1, count, ((tasks.lookup entry.1).map (·.requiredStrengths)).getD best.2.2)
  else best

/-- `Classifier.detectTaskType` (`router/classify.go`): scan the compiled
task patterns in the given iteration order, keep the first task whose
hit count strictly exceeds every earlier one, and derive the confidence
from the winning hit count (0.85 for two or more hits, 0.70 for exactly
one, 0.5 otherwise).  Defaults to `chat`. -/
def detectTaskType (taskPatterns : List (String × List (String → Bool)))
    (tasks : List (String × TaskSpec)) (prompt : String) :
    String × List String × ℚ :=
  let best := taskPatterns.foldl (taskStep tasks prompt) ("chat", 0, [])
  let confidence : ℚ :=
    if 2 ≤ best.2.1 then 85 / 100
    else if best.2.1 = 1 then 70 / 100
    else 1 / 2
  (best.1, best.2.2, confidence)

/-- `Classifier.Classify` (`router/classify.go`): detect the route class
and the task type, then read the route class entry (the Go map read
yields the zero value when the class is not configured) and take the
task's minimum quality when the detected task type is configured,
otherwise the route class's quality floor. -/
def Classify (rcs : List (String × RouteClass))
    (routePatterns : List (String × List (String → Bool)))
    (taskPatterns : List (String × List (String → Bool)))
    (tasks : List (String × TaskSpec))
    (prompt : String) (headers : List (String × String)) : Classification :=
  let routeClass := detectRouteClass rcs routePatterns prompt headers
  let det := detectTaskType taskPatterns tasks prompt
  let rc := (rcs.lookup routeClass).getD default
  let minQuality :=
    match tasks.lookup det.1 with
    | some task => task.minQuality
    | none => rc.qualityFloor
  { routeClass := routeClass
    taskType := det.1
    tier := rc.defaultTier
    minQuality := minQuality
    latencyBudgetMs := rc.latencyBudgetMs
    requiredStrengths := det.2.1
    confidence := det.2.2 }

/-- The Anthropic SSE event vocabulary as emitted by the stream
translators (`proxy/stream.go`).  `messageStart` carries the request id
and model of `buildMessageStart`; `messageDelta` carries the final
output-token count (its stop reason is always `"end_turn"`). -/
inductive SSEEvent where
  | messageStart (id model : String)
  | contentBlockStart
  | contentBlockDelta (text : String)
  | contentBlockStop
  | messageDelta (outputTokens : Nat)
  | messageStop

/-- The wire event name written by `writeSSEEvent` for each event. -/
def SSEEvent.name : SSEEvent → String
  | .messageStart _ _ => "message_start"
  | .contentBlockStart => "content_block_start"
  | .contentBlockDelta _ => "content_block_delta"
  | .contentBlockStop => "content_block_stop"
  | .messageDelta _ => "message_delta"
  | .messageStop => "message_stop"

/-- `emitPreamble` (`proxy/stream.go`): `message_start` followed by
`content_block_start`. -/
def emitPreamble (requestID model : String) : List SSEEvent :=
  [.messageStart requestID model, .contentBlockStart]

/-- `emitEpilogue` (`proxy/stream.go`): `content_block_stop`,
`message_delta` with the final token count, `message_stop`. -/
def emitEpilogue (outputTokens : Nat) : List SSEEvent :=
  [.contentBlockStop, .messageDelta outputTokens, .messageStop]

/-- An OpenAI stream chunk as consumed by the translator: the
`delta.content` of each choice.  Go `json.Unmarshal` into `openAIChunk`
is embedded as the translator's `decode` parameter (`none` for a
malformed payload). -/
structure OpenAIChunk where
  choices : List String

/-- The scan loop of `StreamOpenAIToAnthropic`: skip non-data lines,
stop at `[DONE]`, skip malformed payloads, and emit one
`content_block_delta` per non-empty choice content, in arrival order. -/
def oaiScanLoop (decode : String → Option OpenAIChunk) : List String → List SSEEvent
  | [] => []
  | line :: rest =>
    if goHasPrefix line "data:" then
      if goTrimSpace (goDropChars line 5) = "[DONE]" then []
      else
        match decode (goTrimSpace (goDropChars line 5)) with
        | none => oaiScanLoop decode rest
        | some chunk =>
          (chunk.choices.filter (fun c => c ≠ "")).map SSEEvent.contentBlockDelta ++
            oaiScanLoop decode rest
    else oaiScanLoop decode rest

/-- `StreamOpenAIToAnthropic` (`proxy/stream.go`): preamble, translated
deltas, epilogue with a zero token count (the OpenAI stream does not
surface usage). -/
def StreamOpenAIToAnthropic (decode : String → Option OpenAIChunk)
    (requestID model : String) (lines : List String) : List SSEEvent :=
  emitPreamble requestID model ++ oaiScanLoop decode lines ++ emitEpilogue 0

/-- An Ollama stream line as consumed by the translator: the message
content, the done flag, and the eval count carried by the done line. -/
structure OllamaChunk where
  content : String
  done : Bool
  evalCount : Nat

/-- The scan loop of `StreamOllamaToAnthropic`: skip blank and malformed
lines, stop at the done line capturing its eval count, and emit one
`content_block_delta` per line with non-empty content.  Returns the
deltas and the final output-token count (0 when no done line arrived). -/
def ollamaScanLoop (decode : String → Option OllamaChunk) :
    List String → List SSEEvent × Nat
  | [] => ([], 0)
  | line :: rest =>
    if line = "" then ollamaScanLoop decode rest
    else
      match decode line with
      | none => ollamaScanLoop decode rest
      | some chunk =>
        if chunk.done then ([], chunk.evalCount)
        else if chunk.content ≠ "" then
          (SSEEvent.contentBlockDelta chunk.content :: (ollamaScanLoop decode rest).1,
            (ollamaScanLoop decode rest).2)
        else ollamaScanLoop decode rest

/-- `StreamOllamaToAnthropic` (`proxy/stream.go`): preamble, translated
deltas, epilogue with the captured eval count. -/
def StreamOllamaToAnthropic (decode : String → Option OllamaChunk)
    (requestID model : String) (lines : List String) : List SSEEvent :=
  let scanned := ollamaScanLoop decode lines
  emitPreamble requestID model ++ scanned.1 ++ emitEpilogue scanned.2

/-- `StreamAnthropicPassthrough` (`proxy/stream.go`): copy every upstream
line verbatim to the client. -/
def StreamAnthropicPassthrough : List String → List String
  | [] => []
  | line :: rest => line :: StreamAnthropicPassthrough rest

/-- The event name of one upstream SSE line, when the line is an event
line of the Anthropic envelope format `event: <name>`. -/
def eventNameOfLine (line : String) : Option String :=
  if goHasPrefix line "event: " then some (goDropChars line 7) else none

/-- The event names carried by a raw SSE line stream, in order. -/
def eventNames (lines : List String) : List String :=
  lines.filterMap eventNameOfLine

/-- The Anthropic stream envelope with the given delta texts and final
token count: one `message_start`, one `content_block_start`, the deltas
in order, one `content_block_stop`, one `message_delta`, one
`message_stop`. -/
def mkEnvelope (id model : String) (deltas : List String) (tok : Nat) : List SSEEvent :=
  SSEEvent.messageStart id model :: SSEEvent.contentBlockStart ::
    (deltas.map SSEEvent.contentBlockDelta ++
      [SSEEvent.contentBlockStop, SSEEvent.messageDelta tok, SSEEvent.messageStop])

/-- The envelope invariant on wire event names: exactly one
`message_start`, one `content_block_start`, some number of
`content_block_delta`, one `content_block_stop`, one `message_delta`,
one `message_stop`, in that relative order. -/
def isEnvelopeNames (names : List String) : Prop :=
  ∃ n, names = "message_start" :: "content_block_start" ::
    (List.replicate n "content_block_delta" ++
      ["content_block_stop", "message_delta", "message_stop"])

/-- The delta texts the OpenAI translator forwards, read off the
upstream lines as the specification words it: for each line beginning
with `data:`, trim the prefix, stop at `[DONE]`, skip malformed
payloads, and take every non-empty choice content in arrival order. -/
def oaiDeltaTexts (decode : String → Option OpenAIChunk) : List String → List String
  | [] => []
  | line :: rest =>
    if goHasPrefix line "data:" then
      if goTrimSpace (goDropChars line 5) = "[DONE]" then []
      else
        match decode (goTrimSpace (goDropChars line 5)) with
        | none => oaiDeltaTexts decode rest
        | some chunk => chunk.choices.filter (fun c => c ≠ "") ++ oaiDeltaTexts decode rest
    else oaiDeltaTexts decode rest

/-- The delta texts and final token count the Ollama translator
forwards, read off the upstream lines as the specification words it. -/
def ollamaDeltaTexts (decode : String → Option OllamaChunk) :
    List String → List String × Nat
  | [] => ([], 0)
  | line :: rest =>
    if line = "" then ollamaDeltaTexts decode rest
    else
      match decode line with
      | none => ollamaDeltaTexts decode rest
      | some chunk =>
        if chunk.done then ([], chunk.evalCount)
        else if chunk.content ≠ "" then
          (chunk.content :: (ollamaDeltaTexts decode rest).1, (ollamaDeltaTexts decode rest).2)
        else ollamaDeltaTexts decode rest

/-! ### Concrete fixtures used by counterexamples and witnesses -/

/-- A Vendor-A backend model with prompt suffix `SA`. -/
def modelA : Model :=
  { provider := "anthropic", apiModel := "api-a", baseURL := "", strengths := []
    costPer1kTok := 0, qualityCeiling := 0, promptSuffix := some "SA" }

/-- A Vendor-A backend model with prompt suffix `SB`. -/
def modelB : Model :=
  { provider := "anthropic", apiModel := "api-b", baseURL := "", strengths := []
    costPer1kTok := 0, qualityCeiling := 0, promptSuffix := some "SB" }

/-- A two-model catalogue with `model-b` as the global fallback and no
per-tier failover specs. -/
def cfgAB : Config :=
  { models := [("model-a", modelA), ("model-b", modelB)]
    failover := [], fallbackModel := "model-b" }

/-- An inbound Anthropic body carrying a tool-result block. -/
def rawBody0 : List (String × Json) :=
  [("model", Json.str "client-model"),
   ("max_tokens", Json.num 1024),
   ("messages", Json.arr [Json.obj
     [("role", Json.str "user"),
      ("content", Json.arr [Json.obj
        [("type", Json.str "tool_result"), ("tool_use_id", Json.str "tu_123")]])]])]

/-- Provider outcomes: `model-a` rate-limited with 429, every other
model succeeds with 200. -/
def outcomesAB : String → CallOutcome :=
  fun name => if name = "model-a" then .status 429 else .status 200

/-- A routing decision selecting `model-a` with `model-b` as the sole
alternative. -/
def decisionAB : RoutingDecision :=
  { model := "model-a", tier := "t", alternatives := [{ model := "model-b", score := 0 }] }

/-- An inbound provider request with system prompt `P` carrying the raw
Anthropic body. -/
def reqAB : ProviderRequest :=
  { systemPrompt := "P", rawAnthropicBody := some rawBody0 }

/-- A content pattern matching exactly the prompt `x`. -/
def patX : String → Bool := fun p => p == "x"

/-- Compiled route-pattern entry for a class named `aaa`. -/
def rpA : String × List (String → Bool) := ("aaa", [patX])

/-- Compiled route-pattern entry for a class named `bbb`. -/
def rpB : String × List (String → Bool) := ("bbb", [patX])

/-- Task-spec map where both `aaa` and `bbb` are configured. -/
def tasksAB : List (String × TaskSpec) :=
  [("aaa", { requiredStrengths := [], minQuality := 1 }),
   ("bbb", { requiredStrengths := [], minQuality := 1 })]

/-- The `interactive` route class with a 0.9 quality floor. -/
def rcInteractive : RouteClass :=
  { headers := [], defaultTier := "premium", latencyBudgetMs := 100, qualityFloor := 9 / 10 }

/-- A route-class map holding only `interactive`. -/
def rcsC4 : List (String × RouteClass) := [("interactive", rcInteractive)]

/-- A task map configuring the default task `chat` with minimum quality
0.3 — as the repository's own `tasks.yaml` configures a `chat` task. -/
def tasksC4 : List (String × TaskSpec) :=
  [("chat", { requiredStrengths := [], minQuality := 3 / 10 })]

/-! ### Helper lemmas -/

theorem lookup_setKey_self (l : List (String × Json)) (key : String) (v : Json) :
    (setKey l key v).lookup key = some v := by
  induction l with
  | nil => simp [setKey, List.lookup]
  | cons hd tl ih =>
    rcases hd with ⟨k, v0⟩
    by_cases h : k = key
    · subst h
      simp [setKey, List.lookup]
    · have hb : (key == k) = false := beq_eq_false_iff_ne.mpr (Ne.symm h)
      simp [setKey, h, List.lookup, hb, ih]

theorem lookup_setKey_ne (l : List (String × Json)) (key key' : String) (v : Json)
    (h : key' ≠ key) : (setKey l key v).lookup key' = l.lookup key' := by
  have hb : (key' == key) = false := beq_eq_false_iff_ne.mpr h
  induction l with
  | nil => simp [setKey, List.lookup, hb]
  | cons hd tl ih =>
    rcases hd with ⟨k, v0⟩
    by_cases hk : k = key
    · subst hk
      simp [setKey, List.lookup, hb]
    · simp [setKey, hk, List.lookup, ih]

theorem mem_dedupKeepFirst {x : String} : ∀ {l : List String},
    x ∈ dedupKeepFirst l ↔ x ∈ l := by
  intro l
  induction l using dedupKeepFirst.induct with
  | case1 => simp [dedupKeepFirst]
  | case2 a t ih =>
    rw [dedupKeepFirst]
    by_cases hxa : x = a
    · simp [hxa]
    · simp only [List.mem_cons, hxa, false_or, ih, List.mem_filter]
      simp [hxa]

theorem nodup_dedupKeepFirst : ∀ (l : List String), (dedupKeepFirst l).Nodup := by
  intro l
  induction l using dedupKeepFirst.induct with
  | case1 => simp [dedupKeepFirst]
  | case2 a t ih =>
    rw [dedupKeepFirst]
    refine List.nodup_cons.2 ⟨?_, ih⟩
    intro hmem
    have := List.mem_filter.1 (mem_dedupKeepFirst.1 hmem)
    simp at this

theorem foldl_addToChain : ∀ (l acc : List String),
    l.foldl addToChain acc =
      acc ++ dedupKeepFirst (l.filter (fun x => x ≠ "" ∧ x ∉ acc)) := by
  intro l
  induction l with
  | nil => intro acc; simp [dedupKeepFirst]
  | cons a t ih =>
    intro acc
    by_cases h : a ≠ "" ∧ a ∉ acc
    · have hadd : addToChain acc a = acc ++ [a] := by simp [addToChain, h.1, h.2]
      have hfa : (a :: t).filter (fun x => x ≠ "" ∧ x ∉ acc) =
          a :: t.filter (fun x => x ≠ "" ∧ x ∉ acc) := by
        simp [List.filter_cons, h.1, h.2]
      calc (a :: t).foldl addToChain acc
          = t.foldl addToChain (acc ++ [a]) := by rw [List.foldl_cons, hadd]
        _ = (acc ++ [a]) ++ dedupKeepFirst (t.filter (fun x => x ≠ "" ∧ x ∉ acc ++ [a])) :=
            ih (acc ++ [a])
        _ = acc ++ (a :: dedupKeepFirst ((t.filter (fun x => x ≠ "" ∧ x ∉ acc)).filter
              (fun x => x ≠ a))) := by
            rw [List.append_assoc]
            congr 1
            rw [List.singleton_append]
            congr 1
            congr 1
            rw [List.filter_filter]
            apply List.filter_congr
            intro x _
            by_cases hx1 : x = ""
            · simp [hx1]
            · by_cases hx2 : x = a
              · simp [hx2]
              · by_cases hx3 : x ∈ acc <;>
                  simp [hx1, hx2, hx3, List.mem_append]
        _ = acc ++ dedupKeepFirst ((a :: t).filter (fun x => x ≠ "" ∧ x ∉ acc)) := by
            rw [hfa, dedupKeepFirst]
    · have hadd : addToChain acc a = acc := by simp [addToChain, h]
      have hfa : (a :: t).filter (fun x => x ≠ "" ∧ x ∉ acc) =
          t.filter (fun x => x ≠ "" ∧ x ∉ acc) := by
        simp only [List.filter_cons]
        simp [h]
      rw [List.foldl_cons, hadd, ih acc, hfa]

theorem oaiScanLoop_eq (decode : String → Option OpenAIChunk) :
    ∀ lines, oaiScanLoop decode lines =
      (oaiDeltaTexts decode lines).map SSEEvent.contentBlockDelta := by
  intro lines
  induction lines with
  | nil => rfl
  | cons line rest ih =>
    rw [oaiScanLoop, oaiDeltaTexts]
    by_cases h1 : goHasPrefix line "data:"
    · simp only [h1, if_true]
      by_cases h2 : goTrimSpace (goDropChars line 5) = "[DONE]"
      · simp [h2]
      · simp only [h2, if_false]
        cases hdec : decode (goTrimSpace (goDropChars line 5)) with
        | none => simpa using ih
        | some chunk => simp [ih]
    · simpa [h1] using ih

theorem ollamaScanLoop_eq (decode : String → Option OllamaChunk) :
    ∀ lines, ollamaScanLoop decode lines =
      ((ollamaDeltaTexts decode lines).1.map SSEEvent.contentBlockDelta,
        (ollamaDeltaTexts decode lines).2) := by
  intro lines
  induction lines with
  | nil => rfl
  | cons line rest ih =>
    rw [ollamaScanLoop, ollamaDeltaTexts]
    by_cases h1 : line = ""
    · simpa [h1] using ih
    · simp only [h1, if_false]
      cases hdec : decode line with
      | none => simpa using ih
      | some chunk =>
        by_cases hdone : chunk.done
        · simp [hdone]
        · by_cases hcon : chunk.content ≠ ""
          · simp [hdone, hcon, ih]
          · simpa [hdone, hcon] using ih

theorem map_name_deltas (ds : List String) :
    (ds.map SSEEvent.contentBlockDelta).map SSEEvent.name =
      List.replicate ds.length "content_block_delta" := by
  induction ds with
  | nil => rfl
  | cons d t ih => simp [List.replicate_succ, ih, SSEEvent.name]

theorem map_name_mkEnvelope (id model : String) (deltas : List String) (tok : Nat) :
    (mkEnvelope id model deltas tok).map SSEEvent.name =
      "message_start" :: "content_block_start" ::
        (List.replicate deltas.length "content_block_delta" ++
          ["content_block_stop", "message_delta", "message_stop"]) := by
  simp only [mkEnvelope, List.map_cons, List.map_append, map_name_deltas]
  simp [SSEEvent.name]

/-! ### Claim theorems -/

/-- C1: on the failing input below the failover engine's second attempt
carries a system prompt with the first attempt's suffix still attached
(`P\n\nSA\n\nSB` instead of `InjectSuffix(model-b, P) = P\n\nSB`),
because the loop reassigns `req.SystemPrompt` cumulatively; the raw
Anthropic body, in contrast, is re-patched from the original bytes on
every attempt as the claim states. -/
theorem c1_system_prompt_compounds :
    ((ExecuteWithFailover cfgAB outcomesAB decisionAB reqAB).1.map (·.systemPrompt) =
      ["P\n\nSA", "P\n\nSA\n\nSB"]) ∧
    InjectSuffix cfgAB "model-b" "P" = "P\n\nSB" ∧
    ("P\n\nSA\n\nSB" : String) ≠ "P\n\nSB" ∧
    ((ExecuteWithFailover cfgAB outcomesAB decisionAB reqAB).1.map (·.rawBody) =
      [some (PatchAnthropicRawBody rawBody0 "api-a" "SA"),
       some (PatchAnthropicRawBody rawBody0 "api-b" "SB")]) ∧
    (ExecuteWithFailover cfgAB outcomesAB decisionAB reqAB).2 =
      FailoverStep.success "model-b" 200 := by
  refine ⟨?_, ?_, by decide, ?_, ?_⟩ <;> rfl

/-- C2: route-class content detection depends on the iteration order of
the class mapping: the same configuration (two classes whose content
patterns both match the prompt `x`) yields `aaa` under one order and
`bbb` under the reversed order, so the returned class is not a function
of the configuration and prompt alone. -/
theorem c2_route_class_order_dependent :
    detectRouteClass [] [rpA, rpB] "x" [] = "aaa" ∧
    detectRouteClass [] [rpB, rpA] "x" [] = "bbb" ∧
    List.Perm [rpA, rpB] [rpB, rpA] ∧
    ("aaa" : String) ≠ "bbb" :=
  ⟨rfl, rfl, List.Perm.swap rpB rpA [], by decide⟩

/-- C3: with two tasks tied at one pattern hit each, the winner is the
first task encountered in the iteration order of the task-pattern
mapping, not the lexicographically first name: order `[aaa, bbb]` yields
`aaa` while the reversed order yields `bbb` (both with confidence 0.70);
zero hits still default to `chat` with confidence 0.5. -/
theorem c3_tie_depends_on_iteration_order :
    detectTaskType [("aaa", [patX]), ("bbb", [patX])] tasksAB "x" =
      ("aaa", [], 70 / 100) ∧
    detectTaskType [("bbb", [patX]), ("aaa", [patX])] tasksAB "x" =
      ("bbb", [], 70 / 100) ∧
    List.Perm [("aaa", [patX]), ("bbb", [patX])] [("bbb", [patX]), ("aaa", [patX])] ∧
    ("aaa" : String) ≠ "bbb" ∧
    detectTaskType [("aaa", [patX]), ("bbb", [patX])] tasksAB "zzz" =
      ("chat", [], 1 / 2) :=
  ⟨rfl, rfl, List.Perm.swap _ _ [], by decide, rfl⟩

/-- C4 counterexample: with the `chat` task configured (min quality 0.3)
and a prompt matching no task pattern, task detection falls through to
the default `chat` with confidence 0.5 (zero hits), yet the resulting
`min_quality` is the chat task's 0.3 — not the route class's 0.9 quality
floor as the claim requires for the no-task-matched case. -/
theorem c4_counterexample :
    (Classify rcsC4 [] [] tasksC4 "zzz" []).routeClass = "interactive" ∧
    (Classify rcsC4 [] [] tasksC4 "zzz" []).taskType = "chat" ∧
    (Classify rcsC4 [] [] tasksC4 "zzz" []).confidence = 1 / 2 ∧
    (Classify rcsC4 [] [] tasksC4 "zzz" []).minQuality = 3 / 10 ∧
    rcInteractive.qualityFloor = 9 / 10 ∧
    ((3 : ℚ) / 10) ≠ 9 / 10 :=
  ⟨rfl, rfl, rfl, rfl, rfl, by norm_num⟩

/-- C4 amended: the classification's tier always equals the detected
route class's default tier, and `min_quality` equals the configured
task's minimum quality whenever the detected task type — including the
fall-through default `chat` — is present in the task map, the route
class's quality floor only otherwise. -/
theorem c4_min_quality_rule (rcs : List (String × RouteClass))
    (routePatterns taskPatterns : List (String × List (String → Bool)))
    (tasks : List (String × TaskSpec)) (prompt : String)
    (headers : List (String × String)) :
    (Classify rcs routePatterns taskPatterns tasks prompt headers).tier =
      ((rcs.lookup
        (Classify rcs routePatterns taskPatterns tasks prompt headers).routeClass).getD
          default).defaultTier ∧
    (Classify rcs routePatterns taskPatterns tasks prompt headers).minQuality =
      (match tasks.lookup
          (Classify rcs routePatterns taskPatterns tasks prompt headers).taskType with
        | some task => task.minQuality
        | none => ((rcs.lookup
            (Classify rcs routePatterns taskPatterns tasks prompt headers).routeClass).getD
              default).qualityFloor) :=
  ⟨rfl, rfl⟩

/-- C5: the failover engine treats a status as retryable exactly for
401, 403, 429 and the 500–599 range; at such a status it advances to the
rest of the chain, while any other non-2xx status is returned to the
caller as-is together with the model that produced it. -/
theorem c5_retryable_statuses :
    (∀ code, isRetryableStatus code = true ↔
      (code = 401 ∨ code = 403 ∨ code = 429 ∨ (500 ≤ code ∧ code ≤ 599))) ∧
    (∀ (cfg : Config) (outcomes : String → CallOutcome)
        (orig : Option (List (String × Json))) (rest : List String)
        (sys name : String) (m : Model) (code : Nat),
      cfg.models.lookup name = some m →
      outcomes name = CallOutcome.status code →
      isRetryableStatus code = true →
      (failoverLoop cfg outcomes orig (name :: rest) sys).2 =
        (failoverLoop cfg outcomes orig rest (InjectSuffix cfg name sys)).2) ∧
    (∀ (cfg : Config) (outcomes : String → CallOutcome)
        (orig : Option (List (String × Json))) (rest : List String)
        (sys name : String) (m : Model) (code : Nat),
      cfg.models.lookup name = some m →
      outcomes name = CallOutcome.status code →
      ¬(200 ≤ code ∧ code < 300) →
      isRetryableStatus code = false →
      (failoverLoop cfg outcomes orig (name :: rest) sys).2 =
        FailoverStep.upstreamError name code) := by
  have hiff : ∀ code, isRetryableStatus code = true ↔
      (code = 401 ∨ code = 403 ∨ code = 429 ∨ (500 ≤ code ∧ code ≤ 599)) := by
    intro code
    simp only [isRetryableStatus, Bool.or_eq_true, Bool.and_eq_true, beq_iff_eq,
      decide_eq_true_eq]
    omega
  refine ⟨hiff, ?_, ?_⟩
  · intro cfg outcomes orig rest sys name m code hlook hout hretry
    have h2xx : ¬(200 ≤ code ∧ code < 300) := by
      rcases (hiff code).1 hretry with h | h | h | h <;> omega
    rw [failoverLoop, hlook, hout]
    simp only [h2xx, if_false, hretry, if_true]
  · intro cfg outcomes orig rest sys name m code hlook hout h2xx hretry
    rw [failoverLoop, hlook, hout]
    simp [h2xx, hretry]

/-- C5 witness: on the concrete two-model chain, a 429 from `model-a`
advances the loop to the rest of the chain. -/
theorem c5_retryable_statuses_witness :
    isRetryableStatus 429 = true ∧
    (failoverLoop cfgAB outcomesAB none ["model-a", "model-b"] "P").2 =
      (failoverLoop cfgAB outcomesAB none ["model-b"] (InjectSuffix cfgAB "model-a" "P")).2 :=
  ⟨rfl, c5_retryable_statuses.2.1 cfgAB outcomesAB none ["model-b"] "P" "model-a"
    modelA 429 rfl rfl rfl⟩

/-- C6: the attempt chain is exactly the first-occurrence deduplication
of selected model, alternatives in ranked order, the tier's static
chain, and the global fallback (empty names being dropped as well), and
therefore contains every model name at most once. -/
theorem c6_chain_dedup (cfg : Config) (d : RoutingDecision) :
    buildChainFromDecision cfg d =
      dedupKeepFirst ((d.model :: (d.alternatives.map (·.model) ++
        (cfg.GetFailoverChain d.tier ++ [cfg.fallbackModel]))).filter
          (fun x => x ≠ "")) ∧
    (buildChainFromDecision cfg d).Nodup := by
  have hmain : buildChainFromDecision cfg d =
      dedupKeepFirst ((d.model :: (d.alternatives.map (·.model) ++
        (cfg.GetFailoverChain d.tier ++ [cfg.fallbackModel]))).filter
          (fun x => x ≠ "")) := by
    rw [buildChainFromDecision, foldl_addToChain]
    simp only [List.nil_append]
    congr 1
    apply List.filter_congr
    intro x _
    simp
  refine ⟨hmain, ?_⟩
  rw [hmain]
  exact nodup_dedupKeepFirst _

/-- C7 counterexample: the Vendor-A passthrough copies upstream lines
verbatim, so a successful upstream body that does not itself carry the
envelope (here: a single data line with no event lines) reaches the
client without any `message_start`, refuting the claim for the
passthrough translator. -/
theorem c7_passthrough_counterexample :
    StreamAnthropicPassthrough ["data: hello"] = ["data: hello"] ∧
    ¬ isEnvelopeNames (eventNames (StreamAnthropicPassthrough ["data: hello"])) := by
  refine ⟨rfl, ?_⟩
  rintro ⟨n, h⟩
  have : eventNames (StreamAnthropicPassthrough ["data: hello"]) = [] := by decide
  rw [this] at h
  exact List.noConfusion h

/-- C7 amended: the OpenAI-compat and Ollama translators always emit
exactly the envelope — one `message_start`, one `content_block_start`,
the translated deltas in upstream arrival order, one
`content_block_stop`, one `message_delta`, one `message_stop` — while
the Vendor-A passthrough emits the upstream lines verbatim, so its
output satisfies the envelope exactly when the upstream response does. -/
theorem c7_stream_envelope :
    (∀ (decode : String → Option OpenAIChunk) (requestID model : String)
        (lines : List String),
      StreamOpenAIToAnthropic decode requestID model lines =
        mkEnvelope requestID model (oaiDeltaTexts decode lines) 0) ∧
    (∀ (decode : String → Option OllamaChunk) (requestID model : String)
        (lines : List String),
      StreamOllamaToAnthropic decode requestID model lines =
        mkEnvelope requestID model (ollamaDeltaTexts decode lines).1
          (ollamaDeltaTexts decode lines).2) ∧
    (∀ (requestID model : String) (deltas : List String) (tok : Nat),
      isEnvelopeNames ((mkEnvelope requestID model deltas tok).map SSEEvent.name)) ∧
    (∀ lines : List String,
      StreamAnthropicPassthrough lines = lines ∧
      (isEnvelopeNames (eventNames lines) ↔
        isEnvelopeNames (eventNames (StreamAnthropicPassthrough lines)))) := by
  refine ⟨?_, ?_, ?_, ?_⟩
  · intro decode requestID model lines
    rw [StreamOpenAIToAnthropic, oaiScanLoop_eq]
    rfl
  · intro decode requestID model lines
    rw [StreamOllamaToAnthropic, ollamaScanLoop_eq]
    rfl
  · intro requestID model deltas tok
    exact ⟨deltas.length, map_name_mkEnvelope requestID model deltas tok⟩
  · intro lines
    have hid : StreamAnthropicPassthrough lines = lines := by
      induction lines with
      | nil => rfl
      | cons l t ih => rw [StreamAnthropicPassthrough, ih]
    exact ⟨hid, by rw [hid]⟩

/-- C8: patching an inbound Vendor-A body with a new model name and an
empty suffix sets the `model` field to the new name and preserves the
value of every other top-level field — in particular `messages`, so
tool-invocation, tool-result and image blocks survive unchanged. -/
theorem c8_patch_preserves_fields (body : List (String × Json)) (apiModel key : String)
    (h : key ≠ "model") :
    (PatchAnthropicRawBody body apiModel "").lookup key = body.lookup key ∧
    (PatchAnthropicRawBody body apiModel "").lookup "model" =
      some (Json.str apiModel) := by
  have hpatch : PatchAnthropicRawBody body apiModel "" =
      setKey body "model" (Json.str apiModel) := by
    rw [PatchAnthropicRawBody]
    simp
  rw [hpatch]
  exact ⟨lookup_setKey_ne body "model" key (Json.str apiModel) h,
    lookup_setKey_self body "model" (Json.str apiModel)⟩

/-- C8 witness: on the concrete body carrying a tool-result block, the
`messages` field survives the patch unchanged. -/
theorem c8_patch_preserves_fields_witness :
    ("messages" : String) ≠ "model" ∧
    (PatchAnthropicRawBody rawBody0 "claude-3-5-sonnet-latest" "").lookup "messages" =
      rawBody0.lookup "messages" :=
  ⟨by decide,
    (c8_patch_preserves_fields rawBody0 "claude-3-5-sonnet-latest" "messages"
      (by decide)).1⟩

/-- C9: the required-strengths filter accepts every model when the
required list is empty, so a task with no required strengths never
excludes a model on strength grounds. -/
theorem c9_empty_required_accepts (modelStrengths : List String) :
    hasStrengths modelStrengths [] = true :=
  rfl

end SRRouter
